import Mathlib

/-!
Verification of the `tfswitcher` terraform version switcher (`src/main.rs`).

The development shallowly embeds the program's pure logic directly (the
line-oriented version capture, constraint resolution, orchestration, cache
lookup and archive extraction), and models its I/O boundary (HTTP, the
filesystem, the interactive selector, the `ffi` project-manifest lookup)
as explicit oracles in an `Env` record.  External library behaviour
(the `semver` crate's parsers and the `zip` crate's decoder) is kept
abstract as function parameters, with a small concrete instantiation used
for witnesses.
-/

namespace Tfswitcher

/-- Error values: one constructor per failure source in the Rust program
(`Box<dyn Error>` values are distinguished only by their origin here). -/
inductive TfError where
  | httpError (code : Nat)
  | parseError (msg : String)
  | zipError
  | ioError (msg : String)
  | promptError
deriving DecidableEq, Repr

/-- Observable side effects emitted by the embedded functions, used to state
frame conditions (no network call, no prompt, write ordering). -/
inductive Event where
  | fetchedIndex
  | prompted
  | downloadedArchive (url : String)
  | wroteCache (path : String)
  | warnedNoCacheDir
  | created (path : String)
  | modeSet (path : String) (mode : Nat)
  | streamed (path : String) (contents : List Nat)
deriving DecidableEq, Repr

/-- Bytes of a file or HTTP body (`Vec<u8>`). -/
abbrev Bytes := List Nat

/-- One entry of a ZIP archive (`zip::read::ZipFile`): its name and its
decompressed contents. -/
structure ZipEntry where
  name : String
  contents : Bytes
deriving DecidableEq, Repr

/-- CLI arguments (struct `Args` in `main.rs`): the `--list-all` flag and the
optional explicit version from `-i` (`--install`) or `TF_VERSION`. -/
structure Args where
  list_all : Bool
  version : Option String
deriving DecidableEq, Repr

/-- Oracle environment standing for the program's I/O boundary: the home
directory, filesystem reads/writes, HTTP GET (text and binary), the
project-manifest constraint lookup and the interactive selection. -/
structure Env where
  homeDir : Option String
  fileExists : String → Bool
  readFile : String → Except TfError Bytes
  writeFile : String → Bytes → Except TfError Unit
  httpGetText : String → Except TfError String
  httpGetBytes : String → Except TfError Bytes
  moduleConstraint : Option String
  userSelection : Except TfError Nat

/-- Modelled from the spec: the `ffi` module's `get_version_from_module`
(declared by `mod ffi;` but its source is not in `src/`) is the external
project-manifest collaborator — "an external lookup that scans the current
working directory ... and returns it as a raw constraint string, or nothing".
It is modelled as the `moduleConstraint` oracle of the environment. -/
def ffi_get_version_from_module (env : Env) : Option String :=
  env.moduleConstraint

/-- Abstract interface of the external `semver` crate: `VersionReq::parse`,
`Version::from_str` and `VersionReq::matches`. -/
structure SemverLib (Req Ver : Type) where
  parseReq : String → Except TfError Req
  parseVer : String → Except TfError Ver
  reqMatches : Req → Ver → Bool

/-- Constant `ARCHIVE_URL` of `main.rs`. -/
def ARCHIVE_URL : String := "https://releases.hashicorp.com/terraform"

/-- Constant `DEFAULT_LOCATION` of `main.rs`. -/
def DEFAULT_LOCATION : String := ".local/bin"

/-- Constant `PROGRAM_NAME` of `main.rs`. -/
def PROGRAM_NAME : String := "terraform"

/-! ### The line-oriented version capture (`capture_terraform_versions`)

The Rust code matches each line against the regex
`/(\d+\.\d+\.\d+)(?:-[a-zA-Z0-9-]+)?/?"` when `--list-all` is given and
against `/(\d+\.\d+\.\d+)/?"` otherwise, takes the full leftmost match of a
line and trims `/` and `"` from both of its ends.  The matcher below is a
direct deterministic implementation of those two concrete patterns:
maximal-munch is exact for them because no quantified character class
overlaps with the character that must follow it. -/

/-- Character class `[a-zA-Z0-9-]` of the pre-release suffix. -/
def isVerChar (c : Char) : Bool := c.isAlphanum || c == '-'

/-- Matches the trailing `/?"` of the pattern, returning the characters it
consumes. -/
def endQuote : List Char → Option (List Char)
  | [] => none
  | c :: t =>
    if c = '"' then some ['"']
    else if c = '/' then
      match t with
      | c2 :: _ => if c2 = '"' then some ['/', '"'] else none
      | [] => none
    else none

/-- Matches the `\d+\.\d+\.\d+` part of the pattern (after the leading `/`),
returning the matched text and the remaining input.  Maximal munch of each
digit run is exact because a digit run is followed by a non-digit literal. -/
def matchCore (s : List Char) : Option (List Char × List Char) :=
  if (s.takeWhile Char.isDigit).isEmpty then none else
  match s.dropWhile Char.isDigit with
  | c :: s3 =>
    if c = '.' then
      if (s3.takeWhile Char.isDigit).isEmpty then none else
      match s3.dropWhile Char.isDigit with
      | c2 :: s5 =>
        if c2 = '.' then
          if (s5.takeWhile Char.isDigit).isEmpty then none else
          some (s.takeWhile Char.isDigit ++
                  '.' :: (s3.takeWhile Char.isDigit ++
                    '.' :: s5.takeWhile Char.isDigit),
                s5.dropWhile Char.isDigit)
        else none
      | [] => none
    else none
  | [] => none

/-- Matches the optional greedy pre-release group `(?:-[a-zA-Z0-9-]+)?`,
returning the consumed text and the remaining input.  When the group cannot
match (no `-`, or an empty class run) nothing is consumed; maximal munch of
the class run is exact because the class excludes `/` and `"`. -/
def matchSuffix (s6 : List Char) : List Char × List Char :=
  match s6 with
  | c :: s7 =>
    if c = '-' then
      if (s7.takeWhile isVerChar).isEmpty then ([], s6)
      else ('-' :: s7.takeWhile isVerChar, s7.dropWhile isVerChar)
    else ([], s6)
  | [] => ([], s6)

/-- Matches the active pattern anchored at the head of `s`, returning the full
matched text (what Rust's `capture.get(0)` yields). -/
def matchVersionAt (list_all : Bool) (s : List Char) : Option (List Char) :=
  match s with
  | c :: s1 =>
    if c = '/' then
      match matchCore s1 with
      | some cr =>
        let sfx := if list_all then matchSuffix cr.2 else ([], cr.2)
        match endQuote sfx.2 with
        | some ec => some ('/' :: (cr.1 ++ sfx.1 ++ ec))
        | none => none
      | none => none
    else none
  | [] => none

/-- Leftmost match of the active pattern in a line (`Regex::captures`). -/
def findVersionMatch (list_all : Bool) : List Char → Option (List Char)
  | [] => none
  | c :: rest =>
    match matchVersionAt list_all (c :: rest) with
    | some m => some m
    | none => findVersionMatch list_all rest

/-- The trim set `['/', '"']` of the Rust `trim_matches` call. -/
def isTrimChar (c : Char) : Bool := c == '/' || c == '"'

/-- Rust `str::trim_matches(&['/', '"'])`: removes all leading and trailing
characters of the trim set. -/
def trimMatches (s : List Char) : List Char :=
  (((s.dropWhile isTrimChar).reverse.dropWhile isTrimChar)).reverse

/-- Splits a character list at each occurrence of `sep`, keeping empty
pieces — the behaviour of Rust's `str::split(char)`. -/
def splitOnChar (sep : Char) : List Char → List (List Char)
  | [] => [[]]
  | c :: rest =>
    if c = sep then [] :: splitOnChar sep rest
    else
      match splitOnChar sep rest with
      | [] => [[c]]
      | l :: ls => (c :: l) :: ls

/-- The version capture of `main.rs` lines 108–128: split the document on
newlines, match each line against the active pattern, and emit the trimmed
full match of every matching line in document order. -/
def capture_terraform_versions (args : Args) (contents : String) : List String :=
  (splitOnChar '\n' contents.data).filterMap
    (fun line => (findVersionMatch args.list_all line).map
      (fun m => (trimMatches m).asString))

/-! ### Constraint resolution and orchestration -/

/-- Constraint resolution, `main.rs` lines 130–147: no constraint from the
manifest lookup means "no selection"; otherwise parse the constraint as a
range (errors propagate), then scan the version list in order, parsing each
entry (errors propagate) and returning the first entry the range matches;
if no entry matches, "no selection". -/
def get_version_from_module {Req Ver : Type} (L : SemverLib Req Ver)
    (constraint : Option String) (versions : List String) :
    Except TfError (Option String) :=
  match constraint with
  | none => .ok none
  | some c =>
    match L.parseReq c with
    | .error e => .error e
    | .ok req => loop L req versions
where
  /-- The `for version in versions` loop of `get_version_from_module`. -/
  loop {Req Ver : Type} (L : SemverLib Req Ver) (req : Req) :
      List String → Except TfError (Option String)
  | [] => .ok none
  | v :: rest =>
    match L.parseVer v with
    | .error e => .error e
    | .ok pv => if L.reqMatches req pv then .ok (some v) else loop L req rest

/-- Interactive selection, `main.rs` lines 155–163: ask the selector for an
index and return that element of the list; an out-of-bounds index models the
Rust index panic, a selector failure propagates. -/
def prompt_version_to_user (env : Env) (versions : List String) :
    Except TfError String :=
  match env.userSelection with
  | .error e => .error e
  | .ok i =>
    match versions.get? i with
    | some v => .ok v
    | none => .error .promptError

/-- Wrapper `get_version_from_user_prompt`, `main.rs` lines 149–153. -/
def get_version_from_user_prompt (env : Env) (versions : List String) :
    Except TfError String :=
  prompt_version_to_user env versions

/-- Index fetch plus capture, `main.rs` lines 99–106 (`get_terraform_versions`):
GET the index URL, read its text and run the capture on it. -/
def get_terraform_versions (env : Env) (args : Args) (url : String) :
    Except TfError (List String) :=
  match env.httpGetText url with
  | .error e => .error e
  | .ok contents => .ok (capture_terraform_versions args contents)

/-- Version resolution orchestrator, `main.rs` lines 85–97
(`get_version_to_install`): explicit version first (verbatim, no I/O), else
fetch the index, try the manifest constraint, else prompt the user.  The
second component is the trace of observable effects. -/
def get_version_to_install {Req Ver : Type} (L : SemverLib Req Ver) (env : Env)
    (args : Args) : Except TfError String × List Event :=
  match args.version with
  | some v => (.ok v, [])
  | none =>
    match get_terraform_versions env args ARCHIVE_URL with
    | .error e => (.error e, [.fetchedIndex])
    | .ok versions =>
      match get_version_from_module L (ffi_get_version_from_module env) versions with
      | .error e => (.error e, [.fetchedIndex])
      | .ok (some v) => (.ok v, [.fetchedIndex])
      | .ok none =>
        match get_version_from_user_prompt env versions with
        | .error e => (.error e, [.fetchedIndex, .prompted])
        | .ok v => (.ok v, [.fetchedIndex, .prompted])

/-- Specification-side description of constraint resolution (from the spec's
words, for comparison with `get_version_from_module`): the first version in
listed order whose parse satisfies the range. -/
def firstMatchingVersion {Req Ver : Type} (L : SemverLib Req Ver) (req : Req)
    (versions : List String) : Option String :=
  versions.find? (fun v =>
    match L.parseVer v with
    | .ok pv => L.reqMatches req pv
    | .error _ => false)

/-! ### Archive cache and fetch -/

/-- Cache file name, `main.rs` line 184: `terraform_{version}_{os}_{arch}.zip`. -/
def zipFileName (version os arch : String) : String :=
  "terraform_" ++ version ++ "_" ++ os ++ "_" ++ arch ++ ".zip"

/-- Cache path under the home directory, `main.rs` lines 186–187:
`{home}/{DEFAULT_LOCATION}/{zip_name}`. -/
def cachePath (h zip_name : String) : String :=
  h ++ "/" ++ DEFAULT_LOCATION ++ "/" ++ zip_name

/-- Archive download, `main.rs` lines 201–221
(`download_and_save_terraform_version_zip`): GET the archive URL (failure
propagates); with a home directory, `fs::write` the body to the cache path —
the `?` there makes a write failure propagate; with no home directory, print
`unable to cache archive` and continue; finally decode the in-memory body.
`zipNew` abstracts `ZipArchive::new` of the external `zip` crate. -/
def download_and_save_terraform_version_zip
    (zipNew : Bytes → Except TfError (List ZipEntry)) (env : Env)
    (version zip_name : String) :
    Except TfError (List ZipEntry) × List Event :=
  let url := ARCHIVE_URL ++ "/" ++ version ++ "/" ++ zip_name
  match env.httpGetBytes url with
  | .error e => (.error e, [.downloadedArchive url])
  | .ok buffer =>
    match env.homeDir with
    | some h =>
      match env.writeFile (cachePath h zip_name) buffer with
      | .error e => (.error e, [.downloadedArchive url])
      | .ok _ =>
        (zipNew buffer, [.downloadedArchive url, .wroteCache (cachePath h zip_name)])
    | none => (zipNew buffer, [.downloadedArchive url, .warnedNoCacheDir])

/-- Cache-or-download, `main.rs` lines 179–199 (`get_terraform_version_zip`):
with a home directory and an existing file at the cache path, read and decode
that file directly; otherwise download. -/
def get_terraform_version_zip
    (zipNew : Bytes → Except TfError (List ZipEntry)) (env : Env)
    (version os arch : String) :
    Except TfError (List ZipEntry) × List Event :=
  let zip_name := zipFileName version os arch
  match env.homeDir with
  | some h =>
    if env.fileExists (cachePath h zip_name) then
      match env.readFile (cachePath h zip_name) with
      | .error e => (.error e, [])
      | .ok buffer => (zipNew buffer, [])
    else
      download_and_save_terraform_version_zip zipNew env version zip_name
  | none => download_and_save_terraform_version_zip zipNew env version zip_name

/-! ### Installation (`extract_zip_archive`)

The filesystem is modelled as an association list from paths to file data
(mode and contents); a later entry shadows an earlier one. -/

/-- Mode bits and contents of one file. -/
structure FileData where
  mode : Nat
  contents : Bytes
deriving DecidableEq, Repr

/-- A filesystem state: paths mapped to file data, later entries shadowing. -/
abbrev FS := List (String × FileData)

/-- Looks a path up in the filesystem state. -/
def lookupFile : FS → String → Option FileData
  | [], _ => none
  | (q, d) :: rest, p => if q = p then some d else lookupFile rest p

/-- Sets a path's file data (shadowing any earlier entry). -/
def setFile (fs : FS) (p : String) (d : FileData) : FS :=
  (p, d) :: fs

/-- Rust `File::create`: truncates an existing file keeping its mode, or
creates a fresh one with the process default mode `umaskMode`. -/
def createFile (fs : FS) (p : String) (umaskMode : Nat) : FS :=
  match lookupFile fs p with
  | some d => setFile fs p { mode := d.mode, contents := [] }
  | none => setFile fs p { mode := umaskMode, contents := [] }

/-- Rust `set_permissions` after `set_mode`: replaces the mode bits of an
existing file. -/
def setFileMode (fs : FS) (p : String) (m : Nat) : FS :=
  match lookupFile fs p with
  | some d => setFile fs p { d with mode := m }
  | none => fs

/-- Rust `io::copy` into the freshly created file: replaces the contents. -/
def setFileContents (fs : FS) (p : String) (c : Bytes) : FS :=
  match lookupFile fs p with
  | some d => setFile fs p { d with contents := c }
  | none => fs

/-- Installation, `main.rs` lines 223–242 (`extract_zip_archive`): take entry
index 0 of the archive (error if absent, before any file operation), create
(or truncate) the target, set its mode to `0o755`, then stream the entry's
bytes into it.  Returns the outcome, the final filesystem state and the
ordered trace of file operations. -/
def extract_zip_archive (umaskMode : Nat) (program_path : String)
    (archive : List ZipEntry) (fs : FS) :
    Except TfError Unit × FS × List Event :=
  match archive.head? with
  | none => (.error .zipError, fs, [])
  | some entry =>
    let fs1 := createFile fs program_path umaskMode
    let fs2 := setFileMode fs1 program_path 0o755
    let fs3 := setFileContents fs2 program_path entry.contents
    (.ok (), fs3,
      [.created program_path, .modeSet program_path 0o755,
       .streamed program_path entry.contents])

/-! ### A concrete instantiation of the semver interface

Used for witnesses and counterexamples: it parses exactly the `M.m.p` shape
and matches a requirement against a version by equality — this agrees with
the real `semver` crate at every input the witnesses use (`"1.0.0"` parses,
`"not-a-version"` and `"garbage"` do not, and the requirement `"1.0.0"`
matches the version `1.0.0`). -/

/-- A parsed exact version: major, minor, patch. -/
structure SemVer where
  major : Nat
  minor : Nat
  patch : Nat
deriving DecidableEq, Repr

/-- Digits to a natural number (most significant first). -/
def digitsToNat (l : List Char) : Nat :=
  l.foldl (fun n c => 10 * n + (c.toNat - 48)) 0

/-- Parses a nonempty all-digit component. -/
def parseNatComponent (l : List Char) : Except TfError Nat :=
  if l ≠ [] ∧ l.all Char.isDigit then .ok (digitsToNat l)
  else .error (.parseError (l.asString))

/-- Parses exactly `M.m.p` with numeric components. -/
def parseExactSemVer (s : String) : Except TfError SemVer :=
  match splitOnChar '.' s.data with
  | [a, b, c] =>
    match parseNatComponent a, parseNatComponent b, parseNatComponent c with
    | .ok ma, .ok mi, .ok pa => .ok ⟨ma, mi, pa⟩
    | _, _, _ => .error (.parseError s)
  | _ => .error (.parseError s)

/-- The concrete semver instantiation: exact-version requirements. -/
def exactSemver : SemverLib SemVer SemVer :=
  { parseReq := parseExactSemVer
    parseVer := parseExactSemVer
    reqMatches := fun r v => decide (r = v) }

/-! ### The sample release-index document

The document of the repository's test fixture (`LINES` in `main.rs`),
transcribed line for line. -/

/-- Sample release-index document with the 18 version path fragments. -/
def sampleIndexDocument : String :=
  String.intercalate "\n" [
    "<html><head>",
    "        <title>Terraform Versions | HashiCorp Releases</title>",
    "",
    "    </head>",
    "    <body>",
    "        <ul>",
    "            <li>",
    "            <a href=\"../\">../</a>",
    "            </li>",
    "            <li>",
    "            <a href=\"/terraform/1.3.0/\">terraform_1.3.0</a>",
    "            </li>",
    "            <li>",
    "            <a href=\"/terraform/1.3.0-rc1/\">terraform_1.3.0-rc1</a>",
    "            </li>",
    "            <li>",
    "            <a href=\"/terraform/1.3.0-beta1/\">terraform_1.3.0-beta1</a>",
    "            </li>",
    "            <li>",
    "            <a href=\"/terraform/1.3.0-alpha20220608/\">terraform_1.3.0-alpha20220608</a>",
    "            </li>",
    "            <li>",
    "            <a href=\"/terraform/1.2.0/\">terraform_1.2.0</a>",
    "            </li>",
    "            <li>",
    "            <a href=\"/terraform/1.2.0-rc1/\">terraform_1.2.0-rc1</a>",
    "            </li>",
    "            <li>",
    "            <a href=\"/terraform/1.2.0-beta1/\">terraform_1.2.0-beta1</a>",
    "            </li>",
    "            <li>",
    "            <a href=\"/terraform/1.2.0-alpha20220413/\">terraform_1.2.0-alpha20220413</a>",
    "            </li>",
    "            <li>",
    "            <a href=\"/terraform/1.2.0-alpha-20220328/\">terraform_1.2.0-alpha-20220328</a>",
    "            </li>",
    "            <li>",
    "            <a href=\"/terraform/1.1.0/\">terraform_1.1.0</a>",
    "            </li>",
    "            <li>",
    "            <a href=\"/terraform/1.1.0-rc1/\">terraform_1.1.0-rc1</a>",
    "            </li>",
    "            <li>",
    "            <a href=\"/terraform/1.1.0-beta1/\">terraform_1.1.0-beta1</a>",
    "            </li>",
    "            <li>",
    "            <a href=\"/terraform/1.1.0-alpha20211029/\">terraform_1.1.0-alpha20211029</a>",
    "            </li>",
    "            <li>",
    "            <a href=\"/terraform/1.0.0/\">terraform_1.0.0</a>",
    "            </li>",
    "            <li>",
    "            <a href=\"/terraform/0.15.0/\">terraform_0.15.0</a>",
    "            </li>",
    "            <li>",
    "            <a href=\"/terraform/0.15.0-rc1/\">terraform_0.15.0-rc1</a>",
    "            </li>",
    "            <li>",
    "            <a href=\"/terraform/0.15.0-beta1/\">terraform_0.15.0-beta1</a>",
    "            </li>",
    "            <li>",
    "            <a href=\"/terraform/0.15.0-alpha20210107/\">terraform_0.15.0-alpha20210107</a>",
    "            </li>",
    "            ",
    "        </ul>",
    "",
    "</body></html>"]

/-- The 18 version strings of the sample document, in document order. -/
def sampleAllVersions : List String :=
  ["1.3.0", "1.3.0-rc1", "1.3.0-beta1", "1.3.0-alpha20220608",
   "1.2.0", "1.2.0-rc1", "1.2.0-beta1", "1.2.0-alpha20220413",
   "1.2.0-alpha-20220328",
   "1.1.0", "1.1.0-rc1", "1.1.0-beta1", "1.1.0-alpha20211029",
   "1.0.0",
   "0.15.0", "0.15.0-rc1", "0.15.0-beta1", "0.15.0-alpha20210107"]

/-! ### Concrete data for witnesses -/

/-- A benign oracle environment: home directory present, cache file present
with known bytes, small release index with one stable and one pre-release
version, no manifest constraint, selector picks the first entry. -/
def demoEnv : Env :=
  { homeDir := some "/home/user"
    fileExists := fun _ => true
    readFile := fun _ => .ok [80, 75, 5, 6]
    writeFile := fun _ _ => .ok ()
    httpGetText := fun _ => .ok "/1.0.0/\"\n/1.1.0-rc1/\""
    httpGetBytes := fun _ => .ok [80, 75]
    moduleConstraint := none
    userSelection := .ok 0 }

/-- Same environment but every filesystem write fails. -/
def failingWriteEnv : Env :=
  { demoEnv with
    fileExists := fun _ => false
    writeFile := fun _ _ => .error (.ioError "disk full") }

/-- A concrete stand-in for `ZipArchive::new`: decodes any byte string into a
single-entry archive. -/
def demoZipNew : Bytes → Except TfError (List ZipEntry) :=
  fun b => .ok [⟨"terraform", b⟩]

/-! ### Helper lemmas on constraint resolution -/

theorem gvfm_loop_matches_spec {Req Ver : Type} (L : SemverLib Req Ver)
    (req : Req) :
    ∀ versions : List String,
      (∀ v ∈ versions, (L.parseVer v).isOk = true) →
      get_version_from_module.loop L req versions
        = .ok (firstMatchingVersion L req versions) := by
  intro versions
  induction versions with
  | nil => intro _; rfl
  | cons v rest ih =>
    intro h
    have hv := h v (List.mem_cons_self v rest)
    cases hpv : L.parseVer v with
    | error e => rw [hpv] at hv; exact Bool.noConfusion hv
    | ok pv =>
      simp only [get_version_from_module.loop, firstMatchingVersion, List.find?, hpv]
      cases hm : L.reqMatches req pv with
      | true => rfl
      | false =>
        simpa [firstMatchingVersion] using
          ih (fun w hw => h w (List.mem_cons_of_mem v hw))

theorem gvfm_loop_mem {Req Ver : Type} (L : SemverLib Req Ver) (req : Req) :
    ∀ (versions : List String) (v : String),
      get_version_from_module.loop L req versions = .ok (some v) →
      v ∈ versions := by
  intro versions
  induction versions with
  | nil => intro v h; simp [get_version_from_module.loop] at h
  | cons w rest ih =>
    intro v h
    cases hpv : L.parseVer w with
    | error e =>
      simp only [get_version_from_module.loop, hpv] at h
      exact Except.noConfusion h
    | ok pv =>
      simp only [get_version_from_module.loop, hpv] at h
      by_cases hm : L.reqMatches req pv = true
      · rw [if_pos hm] at h
        cases h
        exact List.mem_cons_self w rest
      · rw [if_neg hm] at h
        exact List.mem_cons_of_mem w (ih v h)

theorem gvfm_loop_error_before_match {Req Ver : Type} (L : SemverLib Req Ver)
    (req : Req) :
    ∀ (heads : List String) (bad : String) (rest : List String) (e : TfError),
      (∀ v ∈ heads, ∃ pv, L.parseVer v = .ok pv ∧ L.reqMatches req pv = false) →
      L.parseVer bad = .error e →
      get_version_from_module.loop L req (heads ++ bad :: rest) = .error e := by
  intro heads
  induction heads with
  | nil =>
    intro bad rest e _ hbad
    simp only [List.nil_append, get_version_from_module.loop, hbad]
  | cons w ws ih =>
    intro bad rest e h hbad
    obtain ⟨pw, hpw, hmw⟩ := h w (List.mem_cons_self w ws)
    simp only [List.cons_append, get_version_from_module.loop, hpw, hmw, if_false]
    exact ih bad rest e (fun v hv => h v (List.mem_cons_of_mem w hv)) hbad

theorem gvfm_mem {Req Ver : Type} (L : SemverLib Req Ver)
    (c : Option String) (versions : List String) (v : String)
    (h : get_version_from_module L c versions = .ok (some v)) : v ∈ versions := by
  cases c with
  | none => simp [get_version_from_module] at h
  | some s =>
    simp only [get_version_from_module] at h
    cases hr : L.parseReq s with
    | error e => rw [hr] at h; simp at h
    | ok req => rw [hr] at h; exact gvfm_loop_mem L req versions v h

/-! ### Claim C1 -/

/-- Claim C1, counterexample: with a home directory present and a filesystem
write that fails, the download succeeds, the in-memory copy decodes, and yet
`download_and_save_terraform_version_zip` returns the write error — the
cache-persist failure is fatal, not a warn-and-continue. -/
theorem cacheWriteFailureIsFatal :
    (download_and_save_terraform_version_zip demoZipNew failingWriteEnv "1.0.0"
        (zipFileName "1.0.0" "linux" "amd64")).1 = .error (.ioError "disk full") ∧
    failingWriteEnv.httpGetBytes
        (ARCHIVE_URL ++ "/" ++ "1.0.0" ++ "/" ++ zipFileName "1.0.0" "linux" "amd64")
      = .ok [80, 75] ∧
    demoZipNew [80, 75] = .ok [⟨"terraform", [80, 75]⟩] :=
  ⟨rfl, rfl, rfl⟩

/-- Claim C1 (amended): after a successful download, the fetch continues with
the in-memory archive only when there is no home directory (it warns
`unable to cache archive`) or when the cache write succeeds; a failing cache
write under an existing home directory is propagated as a fatal error. -/
theorem cacheWriteFailureHandling
    (zipNew : Bytes → Except TfError (List ZipEntry)) (env : Env)
    (version zip_name : String) (buffer : Bytes)
    (hget : env.httpGetBytes (ARCHIVE_URL ++ "/" ++ version ++ "/" ++ zip_name)
      = .ok buffer) :
    (env.homeDir = none →
      download_and_save_terraform_version_zip zipNew env version zip_name
        = (zipNew buffer,
           [.downloadedArchive (ARCHIVE_URL ++ "/" ++ version ++ "/" ++ zip_name),
            .warnedNoCacheDir])) ∧
    (∀ h e, env.homeDir = some h →
      env.writeFile (cachePath h zip_name) buffer = .error e →
      download_and_save_terraform_version_zip zipNew env version zip_name
        = (.error e,
           [.downloadedArchive (ARCHIVE_URL ++ "/" ++ version ++ "/" ++ zip_name)])) ∧
    (∀ h, env.homeDir = some h →
      env.writeFile (cachePath h zip_name) buffer = .ok () →
      download_and_save_terraform_version_zip zipNew env version zip_name
        = (zipNew buffer,
           [.downloadedArchive (ARCHIVE_URL ++ "/" ++ version ++ "/" ++ zip_name),
            .wroteCache (cachePath h zip_name)])) := by
  refine ⟨?_, ?_, ?_⟩
  · intro hnone
    simp only [download_and_save_terraform_version_zip, hget, hnone]
  · intro h e hsome hw
    simp only [download_and_save_terraform_version_zip, hget, hsome, hw]
  · intro h hsome hw
    simp only [download_and_save_terraform_version_zip, hget, hsome, hw]

/-- Claim C1, witness for the amended theorem at a concrete environment. -/
theorem cacheWriteFailureHandling_witness :
    failingWriteEnv.httpGetBytes
        (ARCHIVE_URL ++ "/" ++ "1.0.0" ++ "/" ++ zipFileName "1.0.0" "linux" "amd64")
      = .ok [80, 75] ∧
    download_and_save_terraform_version_zip demoZipNew failingWriteEnv "1.0.0"
        (zipFileName "1.0.0" "linux" "amd64")
      = (.error (.ioError "disk full"),
         [.downloadedArchive
            (ARCHIVE_URL ++ "/" ++ "1.0.0" ++ "/" ++ zipFileName "1.0.0" "linux" "amd64")]) :=
  ⟨rfl,
   (cacheWriteFailureHandling demoZipNew failingWriteEnv "1.0.0"
      (zipFileName "1.0.0" "linux" "amd64") [80, 75] rfl).2.1
     "/home/user" (.ioError "disk full") rfl rfl⟩

/-! ### Claim C3 -/

set_option maxRecDepth 100000 in
/-- Claim C3: on the sample release-index document, strict mode returns
exactly the five stable versions in document order and inclusive mode returns
all 18 version strings in document order. -/
theorem sampleDocumentCapture :
    capture_terraform_versions ⟨false, none⟩ sampleIndexDocument
      = ["1.3.0", "1.2.0", "1.1.0", "1.0.0", "0.15.0"] ∧
    capture_terraform_versions ⟨true, none⟩ sampleIndexDocument
      = sampleAllVersions :=
  ⟨by decide, by decide⟩

/-! ### Claim C4 -/

/-- Claim C4: with an explicit version supplied, resolution returns that
string verbatim and performs no effect at all — the index is not fetched and
the selector is not invoked (the trace is empty). -/
theorem explicitVersionShortCircuits {Req Ver : Type} (L : SemverLib Req Ver)
    (env : Env) (args : Args) (v : String) (h : args.version = some v) :
    get_version_to_install L env args = (.ok v, []) := by
  unfold get_version_to_install
  rw [h]

/-- Claim C4, witness. -/
theorem explicitVersionShortCircuits_witness :
    (⟨false, some "1.2.3"⟩ : Args).version = some "1.2.3" ∧
    get_version_to_install exactSemver demoEnv ⟨false, some "1.2.3"⟩
      = (.ok "1.2.3", []) :=
  ⟨rfl, explicitVersionShortCircuits exactSemver demoEnv ⟨false, some "1.2.3"⟩
    "1.2.3" rfl⟩

/-! ### Claim C5 -/

/-- Claim C5: with no constraint the resolver returns "no selection"; with a
constraint that parses, and all entries parseable, it returns exactly the
first version in listed order whose parse satisfies the range
(`firstMatchingVersion`, the specification-side description) — in particular
"no selection", not an error, when no entry satisfies the range. -/
theorem constraintResolutionFirstMatch {Req Ver : Type} (L : SemverLib Req Ver)
    (versions : List String) :
    get_version_from_module L none versions = .ok none ∧
    (∀ c req, L.parseReq c = .ok req →
      (∀ v ∈ versions, (L.parseVer v).isOk = true) →
      get_version_from_module L (some c) versions
        = .ok (firstMatchingVersion L req versions)) := by
  refine ⟨rfl, ?_⟩
  intro c req hreq hall
  simp only [get_version_from_module, hreq]
  exact gvfm_loop_matches_spec L req versions hall

/-- Claim C5, witness: the constraint `1.0.0` against `["0.9.9", "1.0.0"]`
selects `1.0.0`. -/
theorem constraintResolutionFirstMatch_witness :
    (∀ v ∈ ["0.9.9", "1.0.0"], (exactSemver.parseVer v).isOk = true) ∧
    get_version_from_module exactSemver (some "1.0.0") ["0.9.9", "1.0.0"]
      = .ok (firstMatchingVersion exactSemver ⟨1, 0, 0⟩ ["0.9.9", "1.0.0"]) :=
  ⟨by decide,
   (constraintResolutionFirstMatch exactSemver ["0.9.9", "1.0.0"]).2
     "1.0.0" ⟨1, 0, 0⟩ rfl (by decide)⟩

/-! ### Claim C6 -/

/-- Claim C6, counterexample: the list `["1.0.0", "not-a-version"]` contains a
malformed entry, yet resolution under the constraint `1.0.0` succeeds with
`1.0.0` — the malformed entry after the first match is silently ignored, not
propagated as an error. -/
theorem malformedEntryAfterMatchIgnored :
    get_version_from_module exactSemver (some "1.0.0") ["1.0.0", "not-a-version"]
      = .ok (some "1.0.0") ∧
    (exactSemver.parseVer "not-a-version").isOk = false :=
  ⟨rfl, by decide⟩

/-- Claim C6 (amended): a parse failure of the constraint string, or of any
version entry actually examined (one preceded only by entries that parse and
do not satisfy the range), is a hard error propagated to the caller; entries
after the first satisfying version are never examined. -/
theorem parseFailurePropagatesWhenExamined {Req Ver : Type}
    (L : SemverLib Req Ver) :
    (∀ c e versions, L.parseReq c = .error e →
      get_version_from_module L (some c) versions = .error e) ∧
    (∀ c req heads bad rest e, L.parseReq c = .ok req →
      (∀ v ∈ heads, ∃ pv, L.parseVer v = .ok pv ∧ L.reqMatches req pv = false) →
      L.parseVer bad = .error e →
      get_version_from_module L (some c) (heads ++ bad :: rest) = .error e) := by
  constructor
  · intro c e versions hc
    simp only [get_version_from_module, hc]
  · intro c req heads bad rest e hc hheads hbad
    simp only [get_version_from_module, hc]
    exact gvfm_loop_error_before_match L req heads bad rest e hheads hbad

/-- Claim C6, witness: both failure modes at concrete inputs. -/
theorem parseFailurePropagatesWhenExamined_witness :
    exactSemver.parseReq "garbage" = .error (.parseError "garbage") ∧
    get_version_from_module exactSemver (some "garbage") ["1.0.0"]
      = .error (.parseError "garbage") ∧
    get_version_from_module exactSemver (some "1.0.0")
        (["0.9.9"] ++ "garbage" :: ["2.0.0"])
      = .error (.parseError "garbage") :=
  ⟨rfl,
   (parseFailurePropagatesWhenExamined exactSemver).1 "garbage"
     (.parseError "garbage") ["1.0.0"] rfl,
   (parseFailurePropagatesWhenExamined exactSemver).2 "1.0.0" ⟨1, 0, 0⟩
     ["0.9.9"] "garbage" ["2.0.0"] (.parseError "garbage") rfl
     (by
       intro v hv
       simp only [List.mem_singleton] at hv
       subst hv
       exact ⟨⟨0, 9, 9⟩, rfl, by decide⟩)
     rfl⟩

/-! ### Claim C7 -/

/-- Claim C7: when a file exists at the computed cache path (home directory
present), the fetch performs no effect at all — in particular no network
call — and the archive it returns is the decode of exactly that file's
bytes, with no further validation. -/
theorem cachedArchiveAvoidsNetwork
    (zipNew : Bytes → Except TfError (List ZipEntry)) (env : Env)
    (version os arch h : String) (buffer : Bytes)
    (hh : env.homeDir = some h)
    (hex : env.fileExists (cachePath h (zipFileName version os arch)) = true)
    (hrd : env.readFile (cachePath h (zipFileName version os arch)) = .ok buffer) :
    get_terraform_version_zip zipNew env version os arch = (zipNew buffer, []) := by
  simp only [get_terraform_version_zip, hh, hex, hrd, if_true]

/-- Claim C7, witness. -/
theorem cachedArchiveAvoidsNetwork_witness :
    demoEnv.fileExists (cachePath "/home/user" (zipFileName "1.0.0" "linux" "amd64"))
      = true ∧
    get_terraform_version_zip demoZipNew demoEnv "1.0.0" "linux" "amd64"
      = (demoZipNew [80, 75, 5, 6], []) :=
  ⟨rfl,
   cachedArchiveAvoidsNetwork demoZipNew demoEnv "1.0.0" "linux" "amd64"
     "/home/user" [80, 75, 5, 6] rfl rfl rfl⟩

/-! ### Claim C8 -/

/-- Claim C8: when resolution goes through the fetched listing — i.e. no
explicit version, so the result comes from the constraint path or from the
interactive path (with the selector returning an in-bounds index) — the
resolved version is a member of the captured version list. -/
theorem resolvedVersionMemberOfListing {Req Ver : Type} (L : SemverLib Req Ver)
    (env : Env) (args : Args) (doc v : String)
    (hargs : args.version = none)
    (hfetch : env.httpGetText ARCHIVE_URL = .ok doc)
    (hsel : ∀ i, env.userSelection = .ok i →
      i < (capture_terraform_versions args doc).length)
    (hres : (get_version_to_install L env args).1 = .ok v) :
    v ∈ capture_terraform_versions args doc := by
  simp only [get_version_to_install, hargs, get_terraform_versions, hfetch] at hres
  cases hm : get_version_from_module L (ffi_get_version_from_module env)
      (capture_terraform_versions args doc) with
  | error e => simp only [hm] at hres; exact Except.noConfusion hres
  | ok o =>
    cases o with
    | some w =>
      simp only [hm] at hres
      cases hres
      exact gvfm_mem L (ffi_get_version_from_module env) _ v hm
    | none =>
      simp only [hm, get_version_from_user_prompt, prompt_version_to_user] at hres
      cases hu : env.userSelection with
      | error e => simp only [hu] at hres; exact Except.noConfusion hres
      | ok i =>
        simp only [hu] at hres
        cases hg : (capture_terraform_versions args doc).get? i with
        | none => simp only [hg] at hres; exact Except.noConfusion hres
        | some w =>
          simp only [hg] at hres
          cases hres
          exact List.get?_mem hg

/-- Claim C8, witness: on a two-line index with one stable version, the
interactive path resolves to the sole captured version, a member of the
listing. -/
theorem resolvedVersionMemberOfListing_witness :
    demoEnv.httpGetText ARCHIVE_URL = .ok "/1.0.0/\"\n/1.1.0-rc1/\"" ∧
    (get_version_to_install exactSemver demoEnv ⟨false, none⟩).1 = .ok "1.0.0" ∧
    "1.0.0" ∈ capture_terraform_versions ⟨false, none⟩ "/1.0.0/\"\n/1.1.0-rc1/\"" :=
  ⟨rfl, rfl,
   resolvedVersionMemberOfListing exactSemver demoEnv ⟨false, none⟩
     "/1.0.0/\"\n/1.1.0-rc1/\"" "1.0.0" rfl rfl
     (by
       intro i hi
       injection hi with hi'
       subst hi'
       decide)
     rfl⟩

/-! ### Claim C9 -/

/-- Claim C9: a successful install leaves the target file with mode `0o755`
and the entry's bytes, and the operation trace sets the mode strictly after
creating (or truncating) the file and strictly before streaming the bytes. -/
theorem installSetsMode0755 (umaskMode : Nat) (program_path : String)
    (archive : List ZipEntry) (fs : FS) (entry : ZipEntry) (rest : List ZipEntry)
    (h : archive = entry :: rest) :
    ∃ fs3 : FS,
      extract_zip_archive umaskMode program_path archive fs
        = (.ok (), fs3,
           [.created program_path, .modeSet program_path 0o755,
            .streamed program_path entry.contents]) ∧
      lookupFile fs3 program_path = some ⟨0o755, entry.contents⟩ := by
  subst h
  refine ⟨_, rfl, ?_⟩
  cases hfs : lookupFile fs program_path with
  | none =>
    simp [extract_zip_archive, createFile, setFileMode, setFileContents,
      setFile, lookupFile, hfs]
  | some d =>
    simp [extract_zip_archive, createFile, setFileMode, setFileContents,
      setFile, lookupFile, hfs]

/-- Claim C9, witness. -/
theorem installSetsMode0755_witness :
    ([(⟨"terraform", [1, 2, 3]⟩ : ZipEntry)] : List ZipEntry)
      = ⟨"terraform", [1, 2, 3]⟩ :: [] ∧
    ∃ fs3 : FS,
      extract_zip_archive 0o644 "/home/user/.local/bin/terraform"
          [⟨"terraform", [1, 2, 3]⟩] []
        = (.ok (), fs3,
           [.created "/home/user/.local/bin/terraform",
            .modeSet "/home/user/.local/bin/terraform" 0o755,
            .streamed "/home/user/.local/bin/terraform" [1, 2, 3]]) ∧
      lookupFile fs3 "/home/user/.local/bin/terraform"
        = some ⟨0o755, [1, 2, 3]⟩ :=
  ⟨rfl,
   installSetsMode0755 0o644 "/home/user/.local/bin/terraform"
     [⟨"terraform", [1, 2, 3]⟩] [] ⟨"terraform", [1, 2, 3]⟩ [] rfl⟩

/-! ### Claim C10 -/

/-- Claim C10: with an empty archive, install fails with the archive error
before any file operation — the returned filesystem state is exactly the
initial one (a pre-existing file at the target is untouched) and the trace
is empty (the target was never created or truncated). -/
theorem emptyArchiveLeavesTargetUntouched (umaskMode : Nat)
    (program_path : String) (fs : FS) :
    extract_zip_archive umaskMode program_path [] fs
      = (.error .zipError, fs, []) :=
  rfl

/-! ### Claim C2: lemmas about the two matching modes -/

theorem isTrimChar_eq_false_of_isDigit (c : Char) (h : c.isDigit = true) :
    isTrimChar c = false := by
  by_cases h1 : c = '/'
  · subst h1; exact absurd h (by decide)
  · by_cases h2 : c = '"'
    · subst h2; exact absurd h (by decide)
    · simp [isTrimChar, h1, h2]

theorem endQuote_inv (l ec : List Char) (h : endQuote l = some ec) :
    (∃ t, l = '"' :: t ∧ ec = ['"']) ∨
    (∃ t, l = '/' :: '"' :: t ∧ ec = ['/', '"']) := by
  cases l with
  | nil => exact Option.noConfusion h
  | cons c t =>
    by_cases h1 : c = '"'
    · subst h1
      simp [endQuote] at h
      exact Or.inl ⟨t, rfl, h.symm⟩
    · by_cases h2 : c = '/'
      · subst h2
        cases t with
        | nil => simp [endQuote] at h
        | cons c2 t2 =>
          by_cases h3 : c2 = '"'
          · subst h3
            simp [endQuote] at h
            exact Or.inr ⟨t2, rfl, h.symm⟩
          · simp [endQuote, h3] at h
      · simp [endQuote, h1, h2] at h

theorem matchCore_shape (s core rest : List Char)
    (h : matchCore s = some (core, rest)) :
    (∀ c ∈ core, c.isDigit = true ∨ c = '.') ∧
    (∃ a as, core = a :: as ∧ a.isDigit = true) ∧
    (∃ b bs, core.reverse = b :: bs ∧ b.isDigit = true) := by
  unfold matchCore at h
  split at h
  · exact Option.noConfusion h
  · rename_i h1
    split at h
    · rename_i c s3 _hd1
      split at h
      · rename_i hc
        subst hc
        split at h
        · exact Option.noConfusion h
        · rename_i h2
          split at h
          · rename_i c2 s5 _hd2
            split at h
            · rename_i hc2
              subst hc2
              split at h
              · exact Option.noConfusion h
              · rename_i h3
                rw [Option.some.injEq, Prod.mk.injEq] at h
                obtain ⟨hcore, -⟩ := h
                subst hcore
                have hne1 : s.takeWhile Char.isDigit ≠ [] := by
                  simpa [List.isEmpty_iff] using h1
                have hne3 : s5.takeWhile Char.isDigit ≠ [] := by
                  simpa [List.isEmpty_iff] using h3
                refine ⟨?_, ?_, ?_⟩
                · intro x hx
                  simp only [List.mem_append, List.mem_cons] at hx
                  rcases hx with hx | hx | hx | hx | hx
                  · exact Or.inl (List.mem_takeWhile_imp hx)
                  · exact Or.inr hx
                  · exact Or.inl (List.mem_takeWhile_imp hx)
                  · exact Or.inr hx
                  · exact Or.inl (List.mem_takeWhile_imp hx)
                · obtain ⟨a, as, ha⟩ := List.exists_cons_of_ne_nil hne1
                  refine ⟨a, as ++ '.' :: (s3.takeWhile Char.isDigit ++
                    '.' :: s5.takeWhile Char.isDigit), by rw [ha]; simp, ?_⟩
                  exact List.mem_takeWhile_imp
                    (by rw [ha]; exact List.mem_cons_self a as)
                · obtain ⟨b, bs, hb⟩ :=
                    List.exists_cons_of_ne_nil
                      (show (s5.takeWhile Char.isDigit).reverse ≠ [] by
                        simpa using hne3)
                  refine ⟨b, bs ++ '.' :: ((s3.takeWhile Char.isDigit).reverse ++
                    '.' :: (s.takeWhile Char.isDigit).reverse), ?_, ?_⟩
                  · simp [List.reverse_append, hb, List.append_assoc]
                  · have hbmem : b ∈ (s5.takeWhile Char.isDigit).reverse := by
                      rw [hb]; exact List.mem_cons_self b bs
                    exact List.mem_takeWhile_imp (List.mem_reverse.mp hbmem)
            · exact Option.noConfusion h
          · exact Option.noConfusion h
      · exact Option.noConfusion h
    · exact Option.noConfusion h

theorem matchVersionAt_inv (list_all : Bool) (s m : List Char)
    (h : matchVersionAt list_all s = some m) :
    ∃ s1 core rest ec,
      s = '/' :: s1 ∧
      matchCore s1 = some (core, rest) ∧
      endQuote (if list_all then matchSuffix rest else ([], rest)).2 = some ec ∧
      m = '/' :: (core ++ (if list_all then matchSuffix rest else ([], rest)).1
        ++ ec) := by
  cases s with
  | nil => exact Option.noConfusion h
  | cons c s1 =>
    by_cases hc : c = '/'
    case neg =>
      simp only [matchVersionAt, if_neg hc] at h
      exact Option.noConfusion h
    subst hc
    simp only [matchVersionAt, eq_self_iff_true, if_true] at h
    cases hcr : matchCore s1 with
    | none => rw [hcr] at h; exact Option.noConfusion h
    | some cr =>
      rw [hcr] at h
      simp only at h
      cases hec : endQuote (if list_all then matchSuffix cr.2 else ([], cr.2)).2 with
      | none => rw [hec] at h; exact Option.noConfusion h
      | some ec =>
        rw [hec] at h
        simp only [Option.some.injEq, if_true] at h
        exact ⟨s1, cr.1, cr.2, ec, rfl, by rw [Prod.mk.eta]; exact hcr, hec, h.symm⟩

theorem matchVersionAt_eq_some (list_all : Bool) (s1 core rest ec : List Char)
    (hcr : matchCore s1 = some (core, rest))
    (hec : endQuote (if list_all then matchSuffix rest else ([], rest)).2
      = some ec) :
    matchVersionAt list_all ('/' :: s1)
      = some ('/' :: (core ++ (if list_all then matchSuffix rest
          else ([], rest)).1 ++ ec)) := by
  simp only [matchVersionAt, eq_self_iff_true, if_true, hcr, hec]

theorem trimMatches_strict (core ec : List Char)
    (hhead : ∃ a as, core = a :: as ∧ a.isDigit = true)
    (hlast : ∃ b bs, core.reverse = b :: bs ∧ b.isDigit = true)
    (hec : ec = ['"'] ∨ ec = ['/', '"']) :
    trimMatches ('/' :: (core ++ ec)) = core := by
  obtain ⟨a, as, rfl, ha⟩ := hhead
  obtain ⟨b, bs, hrev, hb⟩ := hlast
  have hta := isTrimChar_eq_false_of_isDigit a ha
  have htb := isTrimChar_eq_false_of_isDigit b hb
  unfold trimMatches
  have h1 : List.dropWhile isTrimChar ('/' :: (a :: as ++ ec))
      = a :: (as ++ ec) := by
    rw [List.dropWhile_cons, if_pos (by decide), List.cons_append,
      List.dropWhile_cons, if_neg (by simp [hta])]
  rw [h1]
  rcases hec with rfl | rfl
  · have h2 : (a :: (as ++ ['"'])).reverse = '"' :: b :: bs := by
      rw [show a :: (as ++ ['"']) = (a :: as) ++ ['"'] by simp,
        List.reverse_append, hrev]
      rfl
    rw [h2, List.dropWhile_cons, if_pos (by decide), List.dropWhile_cons,
      if_neg (by simp [htb]), ← hrev, List.reverse_reverse]
  · have h2 : (a :: (as ++ ['/', '"'])).reverse = '"' :: '/' :: b :: bs := by
      rw [show a :: (as ++ ['/', '"']) = (a :: as) ++ ['/', '"'] by simp,
        List.reverse_append, hrev]
      rfl
    rw [h2, List.dropWhile_cons, if_pos (by decide), List.dropWhile_cons,
      if_pos (by decide), List.dropWhile_cons, if_neg (by simp [htb]),
      ← hrev, List.reverse_reverse]

theorem matchVersionAt_strict_imp_all (s m : List Char)
    (h : matchVersionAt false s = some m) :
    matchVersionAt true s = some m := by
  obtain ⟨s1, core, rest, ec, rfl, hcr, hec, hm⟩ := matchVersionAt_inv false s m h
  simp only [Bool.false_eq_true, if_false] at hec hm
  have hms : matchSuffix rest = ([], rest) := by
    rcases endQuote_inv rest ec hec with ⟨t, rfl, -⟩ | ⟨t, rfl, -⟩
    · simp [matchSuffix]
    · simp [matchSuffix]
  have h2 := matchVersionAt_eq_some true s1 core rest ec hcr
    (by simp only [if_true, hms]; exact hec)
  subst hm
  simpa [hms] using h2

theorem matchVersionAt_all_no_dash_imp_strict (s m : List Char)
    (h : matchVersionAt true s = some m) (hnd : '-' ∉ m) :
    matchVersionAt false s = some m := by
  obtain ⟨s1, core, rest, ec, rfl, hcr, hec, hm⟩ := matchVersionAt_inv true s m h
  simp only [if_true] at hec hm
  have hms : (matchSuffix rest).1 = [] ∧ (matchSuffix rest).2 = rest := by
    cases rest with
    | nil => simp [matchSuffix]
    | cons c s7 =>
      by_cases hc : c = '-'
      · subst hc
        by_cases hcs : (s7.takeWhile isVerChar).isEmpty
        · simp [matchSuffix, hcs]
        · exfalso
          apply hnd
          rw [hm]
          simp [matchSuffix, hcs]
      · simp [matchSuffix, hc]
  rw [hms.2] at hec
  have h2 := matchVersionAt_eq_some false s1 core rest ec hcr
    (by simpa using hec)
  subst hm
  rw [h2]
  simp [hms.1]

theorem findVersionMatch_strict_isSome (line : List Char)
    (h : (findVersionMatch false line).isSome = true) :
    (findVersionMatch true line).isSome = true := by
  induction line with
  | nil => simp [findVersionMatch] at h
  | cons c rest ih =>
    cases hm : matchVersionAt false (c :: rest) with
    | some m =>
      have h2 := matchVersionAt_strict_imp_all (c :: rest) m hm
      simp [findVersionMatch, h2]
    | none =>
      simp only [findVersionMatch, hm] at h
      cases hm2 : matchVersionAt true (c :: rest) with
      | some m2 => simp [findVersionMatch, hm2]
      | none =>
        simp only [findVersionMatch, hm2]
        exact ih h

theorem findVersionMatch_all_no_dash_imp_strict (line m : List Char)
    (h : findVersionMatch true line = some m) (hnd : '-' ∉ m) :
    findVersionMatch false line = some m := by
  induction line with
  | nil => simp [findVersionMatch] at h
  | cons c rest ih =>
    cases hm : matchVersionAt true (c :: rest) with
    | some m2 =>
      simp only [findVersionMatch, hm, Option.some.injEq] at h
      subst h
      have h2 := matchVersionAt_all_no_dash_imp_strict (c :: rest) m2 hm hnd
      simp [findVersionMatch, h2]
    | none =>
      have hmf : matchVersionAt false (c :: rest) = none := by
        cases hval : matchVersionAt false (c :: rest) with
        | none => rfl
        | some x =>
          have h3 := matchVersionAt_strict_imp_all (c :: rest) x hval
          rw [hm] at h3
          exact Option.noConfusion h3
      simp only [findVersionMatch, hm] at h
      simp only [findVersionMatch, hmf]
      exact ih h

theorem findVersionMatch_inv (list_all : Bool) (line m : List Char)
    (h : findVersionMatch list_all line = some m) :
    ∃ s, matchVersionAt list_all s = some m := by
  induction line with
  | nil => simp [findVersionMatch] at h
  | cons c rest ih =>
    cases hm : matchVersionAt list_all (c :: rest) with
    | some m0 =>
      simp only [findVersionMatch, hm, Option.some.injEq] at h
      exact ⟨c :: rest, by rw [hm, h]⟩
    | none =>
      simp only [findVersionMatch, hm] at h
      exact ih h

theorem strict_match_no_dash (line m : List Char)
    (h : findVersionMatch false line = some m) : '-' ∉ trimMatches m := by
  obtain ⟨s, hs⟩ := findVersionMatch_inv false line m h
  obtain ⟨s1, core, rest, ec, -, hcr, hec, hm⟩ := matchVersionAt_inv false s m hs
  simp only [Bool.false_eq_true, if_false] at hec hm
  obtain ⟨hall, hhead, hlast⟩ := matchCore_shape s1 core rest hcr
  have hec2 : ec = ['"'] ∨ ec = ['/', '"'] := by
    rcases endQuote_inv rest ec hec with ⟨t, -, he⟩ | ⟨t, -, he⟩
    · exact Or.inl he
    · exact Or.inr he
  subst hm
  intro hmem
  rw [show ('/' :: (core ++ ([], rest).1 ++ ec)) = '/' :: (core ++ ec) by simp,
    trimMatches_strict core ec hhead hlast hec2] at hmem
  rcases hall '-' hmem with hd | hd
  · exact absurd hd (by decide)
  · exact absurd hd (by decide)

/-! ### Claim C2 -/

/-- Claim C2, counterexample: on the one-line document
`/1.0.0-rc1/" /2.0.0/"` the strict listing is `["2.0.0"]` but the inclusive
listing is `["1.0.0-rc1"]` — the leftmost inclusive match of the line is the
earlier pre-release fragment, which shadows the exact fragment strict mode
captures, so the inclusive listing is not a superset of the strict one. -/
theorem inclusiveNotSupersetCounterexample :
    capture_terraform_versions ⟨false, none⟩ "/1.0.0-rc1/\" /2.0.0/\""
      = ["2.0.0"] ∧
    capture_terraform_versions ⟨true, none⟩ "/1.0.0-rc1/\" /2.0.0/\""
      = ["1.0.0-rc1"] ∧
    "2.0.0" ∉ capture_terraform_versions ⟨true, none⟩ "/1.0.0-rc1/\" /2.0.0/\"" :=
  ⟨by decide, by decide, by decide⟩

/-- Claim C2 (amended): for every document the strict-mode listing contains no
entry with a pre-release suffix (no `-` at all); and the inclusive-mode
listing is a superset of the strict-mode listing provided no line's leftmost
inclusive match carries a pre-release suffix while strict mode matches that
line (that is, no pre-release fragment appears before the first exact
fragment of a line — the situation of the counterexample). -/
theorem captureStrictNoPrereleaseAndSuperset (doc : String) :
    (∀ v ∈ capture_terraform_versions ⟨false, none⟩ doc, '-' ∉ v.data) ∧
    ((∀ line ∈ splitOnChar '\n' doc.data,
        (findVersionMatch false line).isSome = true →
        '-' ∉ (findVersionMatch true line).getD []) →
      ∀ v ∈ capture_terraform_versions ⟨false, none⟩ doc,
        v ∈ capture_terraform_versions ⟨true, none⟩ doc) := by
  constructor
  · intro v hv
    simp only [capture_terraform_versions] at hv
    obtain ⟨line, hline, hmap⟩ := List.mem_filterMap.mp hv
    cases hfm : findVersionMatch false line with
    | none =>
      rw [hfm] at hmap
      exact Option.noConfusion hmap
    | some m =>
      rw [hfm] at hmap
      simp only [Option.map_some', Option.some.injEq] at hmap
      subst hmap
      exact strict_match_no_dash line m hfm
  · intro H v hv
    simp only [capture_terraform_versions] at hv ⊢
    obtain ⟨line, hline, hmap⟩ := List.mem_filterMap.mp hv
    cases hfm : findVersionMatch false line with
    | none =>
      rw [hfm] at hmap
      exact Option.noConfusion hmap
    | some m =>
      rw [hfm] at hmap
      have hsome : (findVersionMatch false line).isSome = true := by
        rw [hfm]; rfl
      have hsome2 := findVersionMatch_strict_isSome line hsome
      cases hfm2 : findVersionMatch true line with
      | none => rw [hfm2] at hsome2; exact Bool.noConfusion hsome2
      | some m2 =>
        have hnd : '-' ∉ m2 := by
          have hH := H line hline hsome
          rw [hfm2] at hH
          exact hH
        have h3 := findVersionMatch_all_no_dash_imp_strict line m2 hfm2 hnd
        rw [hfm] at h3
        rw [Option.some.injEq] at h3
        subst h3
        exact List.mem_filterMap.mpr ⟨line, hline, by rw [hfm2]; exact hmap⟩

/-- Claim C2, witness: a document whose lines have no pre-release fragment
before an exact fragment satisfies the side condition, and its strict listing
is contained in its inclusive listing. -/
theorem captureStrictNoPrereleaseAndSuperset_witness :
    (∀ line ∈ splitOnChar '\n' ("/1.0.0/\"\n/1.1.0-rc1/\"" : String).data,
      (findVersionMatch false line).isSome = true →
      '-' ∉ (findVersionMatch true line).getD []) ∧
    ∀ v ∈ capture_terraform_versions ⟨false, none⟩ "/1.0.0/\"\n/1.1.0-rc1/\"",
      v ∈ capture_terraform_versions ⟨true, none⟩ "/1.0.0/\"\n/1.1.0-rc1/\"" :=
  ⟨by decide,
   (captureStrictNoPrereleaseAndSuperset "/1.0.0/\"\n/1.1.0-rc1/\"").2 (by decide)⟩

end Tfswitcher
